import Mathlib

/-!
Shallow embedding of the platformer core (src/level_objects.py, src/levels.py).

Modelling conventions:
* `pygame.Rect` is a record of integer `left`, `top`, `w`, `h`; `right`/`bottom` are
  the derived edges, exactly as pygame computes them.
* `Rect.colliderect` follows pygame's `_pg_do_rects_intersect`: strict inequalities on
  all four edges, and a rect with zero width or height collides with nothing.
* Python ints are `Int`; the only float in the core is the player's
  `vertical_speed` (it becomes a float once `FALL_ACCELERATION = 0.3` is added),
  modelled as `ℚ` with `FALL_ACCELERATION = 3/10`.  No claim depends on IEEE
  rounding: the values reached here are exact in both semantics.
* `pygame.Rect.move_ip` truncates float arguments toward zero (C double-to-int cast);
  `truncQ` models that conversion.
* A `pygame.sprite.Group` is modelled as a `List` in insertion order.
* Sprite surfaces themselves are display-only; an animator keeps only the frame
  count `numSprites` (= `len(self.sprites)`), the current index and the due time.
-/

/-- `pygame.Rect`: screen-coordinate box with integer position and size. -/
structure Rect where
  left : Int
  top : Int
  w : Int
  h : Int
deriving DecidableEq

/-- `rect.right` in pygame: `left + width`. -/
def Rect.right (r : Rect) : Int := r.left + r.w

/-- `rect.bottom` in pygame: `top + height`. -/
def Rect.bottom (r : Rect) : Int := r.top + r.h

/-- `rect.move_ip(dx, dy)`: shift the box in place. -/
def Rect.move_ip (r : Rect) (dx dy : Int) : Rect :=
  { r with left := r.left + dx, top := r.top + dy }

/-- `a.colliderect(b)` in pygame 2: true overlap with strict edge comparisons;
zero-sized rects never collide.  Touching edges do not count as overlap. -/
def Rect.colliderect (a b : Rect) : Bool :=
  decide (a.w ≠ 0 ∧ a.h ≠ 0 ∧ b.w ≠ 0 ∧ b.h ≠ 0 ∧
    a.left < b.right ∧ a.top < b.bottom ∧ a.right > b.left ∧ a.bottom > b.top)

/-- Conversion applied by pygame when a float is passed to `Rect.move_ip`:
C truncation toward zero (`int(x)` in Python). -/
def truncQ (q : ℚ) : Int := if 0 ≤ q then ⌊q⌋ else ⌈q⌉

/-- `Player.FALL_ACCELERATION = 0.3` (exact rational stands in for the float). -/
def FALL_ACCELERATION : ℚ := 3 / 10

/-- `Player.MOVE_SPEED = 2`. -/
def MOVE_SPEED : Int := 2

/-- `Player.JUMP_SPEED = 10` (an int in the source; it flows into the
rational-valued `vertical_speed`). -/
def JUMP_SPEED : ℚ := 10

/-- The mutable state of `Player` that the physics touches: its rect, the
`bottom_collision` flag, and the two speeds.  Sprite/facing selection is
display-only and omitted. -/
structure Player where
  rect : Rect
  bottom_collision : Bool
  horizontal_speed : Int
  vertical_speed : ℚ
deriving DecidableEq

/-- The per-key state `update` reads (`pygame.K_UP/K_LEFT/K_RIGHT`). -/
structure Keys where
  up : Bool
  left : Bool
  right : Bool
deriving DecidableEq

/-- Body of the horizontal collision loop in `Player._movement_with_collision`
(lines 163-175): one `level_object` processed against the current state. -/
def horizStep (p : Player) (o : Rect) : Player :=
  if o.colliderect p.rect then
    if p.horizontal_speed > 0 ∧ p.rect.right ≥ o.left then
      { p with horizontal_speed := 0,
               rect := p.rect.move_ip (o.left - p.rect.right) 0 }
    else if p.horizontal_speed < 0 ∧ p.rect.left ≤ o.right then
      { p with horizontal_speed := 0,
               rect := p.rect.move_ip (o.right - p.rect.left) 0 }
    else p
  else p

/-- Body of the vertical collision loop in `Player._movement_with_collision`
(lines 179-194). -/
def vertStep (p : Player) (o : Rect) : Player :=
  if o.colliderect p.rect then
    if p.vertical_speed > 0 ∧ p.rect.bottom > o.top then
      { p with vertical_speed := 0, bottom_collision := true,
               rect := p.rect.move_ip 0 (o.top - p.rect.bottom) }
    else if p.vertical_speed < 0 ∧ p.rect.top ≤ o.bottom then
      { p with vertical_speed := 0,
               rect := p.rect.move_ip 0 (o.bottom - p.rect.top) }
    else p
  else p

/-- First half of `_movement_with_collision`: reset `bottom_collision`, move the
rect by `horizontal_speed`, then run the horizontal loop over all objects. -/
def horizPhase (p : Player) (objs : List Rect) : Player :=
  let p0 := { p with bottom_collision := false }
  let p1 := { p0 with rect := p0.rect.move_ip p0.horizontal_speed 0 }
  List.foldl horizStep p1 objs

/-- Second half of `_movement_with_collision`: move the rect by
`vertical_speed` (truncated to int by `move_ip`), then run the vertical loop. -/
def vertPhase (p : Player) (objs : List Rect) : Player :=
  let p1 := { p with rect := p.rect.move_ip 0 (truncQ p.vertical_speed) }
  List.foldl vertStep p1 objs

/-- `Player._movement_with_collision`: horizontal pass then vertical pass. -/
def movementWithCollision (p : Player) (objs : List Rect) : Player :=
  vertPhase (horizPhase p objs) objs

/-- The input-handling prefix of `Player.update` (lines 131-144): reset
horizontal speed, jump impulse if grounded, then left/right movement
(right processed last, so it wins when both are held). -/
def applyKeys (p : Player) (keys : Keys) : Player :=
  let a := { p with horizontal_speed := 0 }
  let b := if keys.up && a.bottom_collision
           then { a with vertical_speed := -JUMP_SPEED } else a
  let c := if keys.left then { b with horizontal_speed := -MOVE_SPEED } else b
  if keys.right then { c with horizontal_speed := MOVE_SPEED } else c

/-- `Player.update`: keys, collision resolution, then gravity while airborne. -/
def Player.update (p : Player) (keys : Keys) (objs : List Rect) : Player :=
  let q := movementWithCollision (applyKeys p keys) objs
  if !q.bottom_collision
  then { q with vertical_speed := q.vertical_speed + FALL_ACCELERATION } else q

/-- `BaseObject.ANIMATION_SPEED = 150` (no subclass overrides it). -/
def ANIMATION_SPEED : Int := 150

/-- The animation state of `BaseObject`: the number of loaded sprites
(`len(self.sprites)`), `sprite_animation_index` and `next_animation_time`. -/
structure BaseObject where
  numSprites : Nat
  sprite_animation_index : Int
  next_animation_time : Int
deriving DecidableEq

/-- `BaseObject.__init__` (animation part): index 0, due time jittered by
`random.randint(0, 500)` from the current tick count. -/
def BaseObject.init (n : Nat) (ticks jitter : Int) : BaseObject :=
  ⟨n, 0, ticks + jitter⟩

/-- `BaseObject.animate` queried at tick count `t`: with more than one sprite
and `t - next_animation_time > 0`, step the index modulo the sprite count and
push the due time forward by one cadence. -/
def BaseObject.animate (s : BaseObject) (t : Int) : BaseObject :=
  if 1 < s.numSprites ∧ t - s.next_animation_time > 0 then
    { s with sprite_animation_index :=
               (s.sprite_animation_index + 1) % (s.numSprites : Int),
             next_animation_time := s.next_animation_time + ANIMATION_SPEED }
  else s

/-- `k` successive `animate` queries, all at the same tick count `t`. -/
def BaseObject.animateN (s : BaseObject) (t : Int) : Nat → BaseObject
  | 0 => s
  | k + 1 => (s.animateN t k).animate t

/-- Kinds of level entities, one per `level_objects.py` class. -/
inductive ObjKind
  | block
  | fire
  | bluefire
  | exitDoor
  | player
deriving DecidableEq

/-- A level entity as the grid parser creates it: its class and the screen
position handed to the constructor (`x = column * sprite_size`,
`y = row * sprite_size`). -/
structure Entity where
  kind : ObjKind
  x : Int
  y : Int
deriving DecidableEq

/-- The exceptions `Level.load_map` can raise.
`onlyOnePlayer` is the explicit `ValueError` of line 70.
`groupAddNone` models the error pygame raises at line 73 when the grid held no
`P`: `self.all_objects.add(self.player)` is then `Group.add(None)`, and
pygame's `AbstractGroup.add` calls `sprite.add_internal(self)` on the
non-sprite, which fails with `AttributeError` on `None`. -/
inductive LoadError
  | onlyOnePlayer
  | groupAddNone
deriving DecidableEq

/-- The `Level` attributes filled by `load_map` (sprite groups as lists in
insertion order; `name` and `_sprite_size` are construction parameters). -/
structure Level where
  player : Option Entity
  all_objects : List Entity
  safe_objects : List Entity
  traps : List Entity
  exits : List Entity
deriving DecidableEq

/-- The group/player state `Level.__init__` sets up before `load_map` runs. -/
def initLevel : Level := ⟨none, [], [], [], []⟩

/-- One cell of the `load_map` loop body (lines 47-71): the chain of `if cell == ...`
tests, each appending to its group, and the `P` case that raises if a player
was already seen. -/
def processCell (ss : Int) (rowNum colNum : Nat) (st : Level) (cell : Char) :
    Except LoadError Level :=
  let x : Int := (colNum : Int) * ss
  let y : Int := (rowNum : Int) * ss
  let s1 := if cell = 'B'
            then { st with safe_objects := st.safe_objects ++ [⟨.block, x, y⟩] } else st
  let s2 := if cell = 'T'
            then { s1 with traps := s1.traps ++ [⟨.fire, x, y⟩] } else s1
  let s3 := if cell = 't'
            then { s2 with traps := s2.traps ++ [⟨.bluefire, x, y⟩] } else s2
  let s4 := if cell = 'E'
            then { s3 with exits := s3.exits ++ [⟨.exitDoor, x, y⟩] } else s3
  if cell = 'P' then
    match s4.player with
    | some _ => .error .onlyOnePlayer
    | none => .ok { s4 with player := some ⟨.player, x, y⟩ }
  else .ok s4

/-- The inner `for column_num, cell in enumerate(row)` loop, starting at column
`colNum`; an exception aborts the rest of the scan. -/
def scanRow (ss : Int) (rowNum : Nat) (colNum : Nat) (st : Level) :
    List Char → Except LoadError Level
  | [] => .ok st
  | c :: cs =>
    match processCell ss rowNum colNum st c with
    | .error e => .error e
    | .ok st1 => scanRow ss rowNum (colNum + 1) st1 cs

/-- The outer `for row_num, row in enumerate(level_map)` loop, starting at row
`rowNum`. -/
def scanRows (ss : Int) (rowNum : Nat) (st : Level) :
    List (List Char) → Except LoadError Level
  | [] => .ok st
  | r :: rs =>
    match scanRow ss rowNum 0 st r with
    | .error e => .error e
    | .ok st1 => scanRows ss (rowNum + 1) st1 rs

/-- `Level.load_map` on an already-read grid: scan every cell, then execute
lines 73-76, which add the player and the three groups to `all_objects`.
Adding an unset (`None`) player there raises inside pygame (`groupAddNone`). -/
def load_map (ss : Int) (grid : List (List Char)) : Except LoadError Level :=
  match scanRows ss 0 initLevel grid with
  | .error e => .error e
  | .ok st =>
    match st.player with
    | none => .error .groupAddNone
    | some pl =>
      .ok { st with all_objects :=
              st.all_objects ++ [pl] ++ st.safe_objects ++ st.traps ++ st.exits }

/-- Occurrences of character `ch` in one row, counted as the scan does. -/
def countCh (ch : Char) : List Char → Nat
  | [] => 0
  | c :: cs => (if c = ch then 1 else 0) + countCh ch cs

/-- Occurrences of character `ch` in the whole grid. -/
def countChG (ch : Char) : List (List Char) → Nat
  | [] => 0
  | r :: rs => countCh ch r + countChG ch rs

/-- Column indices (from `colNum` on) of the cells of a row equal to `ch`,
in scan order. -/
def rowCellsOf (ch : Char) (colNum : Nat) : List Char → List Nat
  | [] => []
  | c :: cs => (if c = ch then [colNum] else []) ++ rowCellsOf ch (colNum + 1) cs

/-- `(row, column)` coordinates of the cells of the grid equal to `ch`,
in scan order, with rows numbered from `rowNum`. -/
def gridCellsOf (ch : Char) (rowNum : Nat) : List (List Char) → List (Nat × Nat)
  | [] => []
  | r :: rs => (rowCellsOf ch 0 r).map (fun c => (rowNum, c)) ++
               gridCellsOf ch (rowNum + 1) rs

/-- The entity a recognized cell at grid coordinates `(row, column)` produces:
screen position `(column * sprite_size, row * sprite_size)`. -/
def cellEnt (k : ObjKind) (ss : Int) (rc : Nat × Nat) : Entity :=
  ⟨k, (rc.2 : Int) * ss, (rc.1 : Int) * ss⟩

/-- Row-indexed form of `cellEnt`, used for single-row statements. -/
def rowEnt (k : ObjKind) (ss : Int) (rowNum colNum : Nat) : Entity :=
  ⟨k, (colNum : Int) * ss, (rowNum : Int) * ss⟩

/-- The trap entities one row contributes (`T` makes `Fire`, `t` makes
`BlueFire`), in scan order. -/
def rowTrapEnts (ss : Int) (rowNum colNum : Nat) : List Char → List Entity
  | [] => []
  | c :: cs =>
    (if c = 'T' then [rowEnt .fire ss rowNum colNum]
     else if c = 't' then [rowEnt .bluefire ss rowNum colNum] else []) ++
    rowTrapEnts ss rowNum (colNum + 1) cs

/-- The trap entities of the whole grid, in scan order. -/
def gridTrapEnts (ss : Int) (rowNum : Nat) : List (List Char) → List Entity
  | [] => []
  | r :: rs => rowTrapEnts ss rowNum 0 r ++ gridTrapEnts ss (rowNum + 1) rs

/-- The player entity created by the first `P` of a row, if any. -/
def rowPlayerEnt (ss : Int) (rowNum colNum : Nat) : List Char → Option Entity
  | [] => none
  | c :: cs => if c = 'P' then some (rowEnt .player ss rowNum colNum)
               else rowPlayerEnt ss rowNum (colNum + 1) cs

/-- `self.player` keeps its first assignment: an already-set player wins. -/
def mergeP (p q : Option Entity) : Option Entity :=
  match p with
  | some e => some e
  | none => q

/-- The player entity created by the first `P` of the grid, if any. -/
def gridPlayerEnt (ss : Int) (rowNum : Nat) : List (List Char) → Option Entity
  | [] => none
  | r :: rs => mergeP (rowPlayerEnt ss rowNum 0 r) (gridPlayerEnt ss (rowNum + 1) rs)

/-- `1` if the level already holds a player reference, else `0`. -/
def playerCount (st : Level) : Nat :=
  match st.player with
  | some _ => 1
  | none => 0

/-! ### Basic facts about the collision steps -/

/-- `colliderect` spelled out as a proposition. -/
theorem colliderect_iff {a b : Rect} :
    a.colliderect b = true ↔
      (a.w ≠ 0 ∧ a.h ≠ 0 ∧ b.w ≠ 0 ∧ b.h ≠ 0 ∧
       a.left < b.right ∧ a.top < b.bottom ∧ a.right > b.left ∧ a.bottom > b.top) := by
  simp [Rect.colliderect]

/-- A non-overlapping object leaves the horizontal step untouched. -/
theorem horizStep_skip {p : Player} {o : Rect} (h : o.colliderect p.rect = false) :
    horizStep p o = p := by
  simp [horizStep, h]

/-- With zero horizontal speed neither horizontal branch can fire. -/
theorem horizStep_zero {p : Player} (o : Rect) (h : p.horizontal_speed = 0) :
    horizStep p o = p := by
  simp [horizStep, h]

/-- A non-overlapping object leaves the vertical step untouched. -/
theorem vertStep_skip {p : Player} {o : Rect} (h : o.colliderect p.rect = false) :
    vertStep p o = p := by
  simp [vertStep, h]

/-- With zero vertical speed neither vertical branch can fire. -/
theorem vertStep_zero {p : Player} (o : Rect) (h : p.vertical_speed = 0) :
    vertStep p o = p := by
  simp [vertStep, h]

/-- The horizontal loop over objects that never overlap is the identity. -/
theorem foldl_horizStep_skip {p : Player} {l : List Rect}
    (h : ∀ x ∈ l, x.colliderect p.rect = false) :
    List.foldl horizStep p l = p := by
  induction l with
  | nil => rfl
  | cons a l ih =>
    rw [List.foldl_cons, horizStep_skip (h a (by simp))]
    exact ih fun x hx => h x (by simp [hx])

/-- The horizontal loop after the speed has been zeroed is the identity. -/
theorem foldl_horizStep_zero {p : Player} (l : List Rect)
    (h : p.horizontal_speed = 0) :
    List.foldl horizStep p l = p := by
  induction l with
  | nil => rfl
  | cons a l ih => rw [List.foldl_cons, horizStep_zero a h]; exact ih

/-- The vertical loop over objects that never overlap is the identity. -/
theorem foldl_vertStep_skip {p : Player} {l : List Rect}
    (h : ∀ x ∈ l, x.colliderect p.rect = false) :
    List.foldl vertStep p l = p := by
  induction l with
  | nil => rfl
  | cons a l ih =>
    rw [List.foldl_cons, vertStep_skip (h a (by simp))]
    exact ih fun x hx => h x (by simp [hx])

/-- The vertical loop after the speed has been zeroed is the identity. -/
theorem foldl_vertStep_zero {p : Player} (l : List Rect)
    (h : p.vertical_speed = 0) :
    List.foldl vertStep p l = p := by
  induction l with
  | nil => rfl
  | cons a l ih => rw [List.foldl_cons, vertStep_zero a h]; exact ih

/-! ### Wall and floor resolution (claims C6, C7) -/

/-- C6: A player moving right whose moved box overlaps a single solid object
ends the horizontal pass with horizontal velocity `0` and its right edge equal
to the object's left edge, with no remaining overlap. -/
theorem claim_C6_right_face_snap (p : Player) (o : Rect)
    (hs : 0 < p.horizontal_speed)
    (hov : o.colliderect (p.rect.move_ip p.horizontal_speed 0) = true) :
    (horizPhase p [o]).horizontal_speed = 0 ∧
    (horizPhase p [o]).rect.right = o.left ∧
    o.colliderect (horizPhase p [o]).rect = false := by
  have hhl := (colliderect_iff.mp hov).2.2.2.2.1
  unfold horizPhase
  simp only [List.foldl_cons, List.foldl_nil]
  rw [horizStep, if_pos hov, if_pos]
  · refine ⟨rfl, ?_, ?_⟩
    · simp [Rect.move_ip, Rect.right]
      ring
    · rw [← Bool.not_eq_true]
      intro hcol
      have h5 := (colliderect_iff.mp hcol).2.2.2.2.1
      simp [Rect.move_ip, Rect.right] at h5
      omega
  · constructor
    · exact hs
    · simp only [Rect.right] at hhl ⊢
      simp [Rect.move_ip] at hhl ⊢
      omega

/-- C7: A player moving down whose moved box overlaps a single solid object
ends the vertical pass with vertical velocity `0`, `bottom_collision` set, and
its bottom edge equal to the object's top edge. -/
theorem claim_C7_floor_snap (p : Player) (o : Rect)
    (hs : 0 < p.vertical_speed)
    (hov : o.colliderect (p.rect.move_ip 0 (truncQ p.vertical_speed)) = true) :
    (vertPhase p [o]).vertical_speed = 0 ∧
    (vertPhase p [o]).bottom_collision = true ∧
    (vertPhase p [o]).rect.bottom = o.top := by
  have htb := (colliderect_iff.mp hov).2.2.2.2.2.1
  unfold vertPhase
  simp only [List.foldl_cons, List.foldl_nil]
  rw [vertStep, if_pos hov, if_pos]
  · refine ⟨rfl, rfl, ?_⟩
    simp [Rect.move_ip, Rect.bottom]
    ring
  · constructor
    · exact hs
    · simp only [Rect.bottom] at htb ⊢
      simp [Rect.move_ip] at htb ⊢
      omega

/-- Witness for C6 at a concrete rightward collision. -/
theorem claim_C6_witness :
    0 < (2 : Int) ∧
    (horizPhase ⟨⟨0, 0, 16, 16⟩, false, 2, 0⟩ [⟨17, 0, 16, 16⟩]).horizontal_speed = 0 ∧
    (horizPhase ⟨⟨0, 0, 16, 16⟩, false, 2, 0⟩ [⟨17, 0, 16, 16⟩]).rect.right = 17 := by
  have h := claim_C6_right_face_snap ⟨⟨0, 0, 16, 16⟩, false, 2, 0⟩ ⟨17, 0, 16, 16⟩
    (by decide) (by decide)
  exact ⟨by decide, h.1, h.2.1⟩

/-- Witness for C7 at a concrete fall onto a block. -/
theorem claim_C7_witness :
    0 < (5 : ℚ) ∧
    (vertPhase ⟨⟨0, 0, 16, 16⟩, false, 0, 5⟩ [⟨0, 18, 16, 16⟩]).vertical_speed = 0 ∧
    (vertPhase ⟨⟨0, 0, 16, 16⟩, false, 0, 5⟩ [⟨0, 18, 16, 16⟩]).bottom_collision = true ∧
    (vertPhase ⟨⟨0, 0, 16, 16⟩, false, 0, 5⟩ [⟨0, 18, 16, 16⟩]).rect.bottom = 18 := by
  have h := claim_C7_floor_snap ⟨⟨0, 0, 16, 16⟩, false, 0, 5⟩ ⟨0, 18, 16, 16⟩
    (by decide) (by decide)
  exact ⟨by decide, h.1, h.2.1, h.2.2⟩

/-! ### Multiple overlaps in one axis pass (claim C3) -/

/-- C3 counterexample: the player's box (already moved right, speed `2`)
overlaps two mutually disjoint solids; iterating the horizontal loop snaps to
the FIRST one processed (right edge `-5`), not to the last one (left edge `24`):
the first snap zeroes the speed, so the later overlapping solid has no effect. -/
theorem claim_C3_cex :
    (⟨-5, 0, 16, 16⟩ : Rect).colliderect ⟨10, 0, 16, 16⟩ = true ∧
    (⟨24, 0, 16, 16⟩ : Rect).colliderect ⟨10, 0, 16, 16⟩ = true ∧
    (⟨-5, 0, 16, 16⟩ : Rect).colliderect ⟨24, 0, 16, 16⟩ = false ∧
    (List.foldl horizStep ⟨⟨10, 0, 16, 16⟩, false, 2, 0⟩
        [⟨-5, 0, 16, 16⟩, ⟨24, 0, 16, 16⟩]).rect.right ≠ (⟨24, 0, 16, 16⟩ : Rect).left ∧
    (List.foldl horizStep ⟨⟨10, 0, 16, 16⟩, false, 2, 0⟩
        [⟨-5, 0, 16, 16⟩, ⟨24, 0, 16, 16⟩]).rect.right = -5 := by
  decide

/-- C3 amended: each solid is checked independently in iteration order, but a
snap zeroes the axis speed and both branches require a nonzero speed, so at
most one snap happens per axis pass: the first solid that overlaps when
processed determines the final state of the pass; everything after it is a
no-op. -/
theorem claim_C3_first_overlap_wins :
    (∀ (p : Player) (l₁ l₂ : List Rect) (o : Rect),
      (∀ x ∈ l₁, x.colliderect p.rect = false) →
      o.colliderect p.rect = true →
      p.horizontal_speed ≠ 0 →
      (horizStep p o).horizontal_speed = 0 ∧
      List.foldl horizStep p (l₁ ++ o :: l₂) = horizStep p o) ∧
    (∀ (p : Player) (l₁ l₂ : List Rect) (o : Rect),
      (∀ x ∈ l₁, x.colliderect p.rect = false) →
      o.colliderect p.rect = true →
      p.vertical_speed ≠ 0 →
      (vertStep p o).vertical_speed = 0 ∧
      List.foldl vertStep p (l₁ ++ o :: l₂) = vertStep p o) := by
  constructor
  · intro p l₁ l₂ o h₁ ho hs
    have hz : (horizStep p o).horizontal_speed = 0 := by
      have hlt := (colliderect_iff.mp ho).2.2.2.2.1
      have hgt := (colliderect_iff.mp ho).2.2.2.2.2.2.1
      unfold horizStep
      rw [if_pos ho]
      rcases hs.lt_or_lt with hneg | hpos
      · rw [if_neg (by omega), if_pos ⟨hneg, by omega⟩]
      · rw [if_pos ⟨hpos, le_of_lt hlt⟩]
    refine ⟨hz, ?_⟩
    rw [List.foldl_append, foldl_horizStep_skip h₁, List.foldl_cons,
        foldl_horizStep_zero l₂ hz]
  · intro p l₁ l₂ o h₁ ho hs
    have hz : (vertStep p o).vertical_speed = 0 := by
      have htb := (colliderect_iff.mp ho).2.2.2.2.2.1
      have hbt := (colliderect_iff.mp ho).2.2.2.2.2.2.2
      unfold vertStep
      rw [if_pos ho]
      rcases hs.lt_or_lt with hneg | hpos
      · rw [if_neg (by intro hc; exact absurd hc.1 (by exact not_lt.mpr hneg.le)),
            if_pos ⟨hneg, by simp only [Rect.bottom] at hbt ⊢; omega⟩]
      · rw [if_pos ⟨hpos, by simp only [Rect.top, Rect.bottom] at htb ⊢; omega⟩]
    refine ⟨hz, ?_⟩
    rw [List.foldl_append, foldl_vertStep_skip h₁, List.foldl_cons,
        foldl_vertStep_zero l₂ hz]

/-- Witness for the amended C3 on concrete lists for both axis passes. -/
theorem claim_C3_witness :
    ((horizStep ⟨⟨10, 0, 16, 16⟩, false, 2, 0⟩ ⟨24, 0, 16, 16⟩).horizontal_speed = 0 ∧
     List.foldl horizStep ⟨⟨10, 0, 16, 16⟩, false, 2, 0⟩
       ([⟨100, 100, 16, 16⟩] ++ ⟨24, 0, 16, 16⟩ :: [⟨15, 0, 16, 16⟩]) =
       horizStep ⟨⟨10, 0, 16, 16⟩, false, 2, 0⟩ ⟨24, 0, 16, 16⟩) ∧
    ((vertStep ⟨⟨0, 5, 16, 16⟩, false, 0, 5⟩ ⟨0, 18, 16, 16⟩).vertical_speed = 0 ∧
     List.foldl vertStep ⟨⟨0, 5, 16, 16⟩, false, 0, 5⟩
       ([] ++ ⟨0, 18, 16, 16⟩ :: [⟨0, 40, 16, 16⟩]) =
       vertStep ⟨⟨0, 5, 16, 16⟩, false, 0, 5⟩ ⟨0, 18, 16, 16⟩) := by
  constructor
  · exact claim_C3_first_overlap_wins.1 ⟨⟨10, 0, 16, 16⟩, false, 2, 0⟩
      [⟨100, 100, 16, 16⟩] [⟨15, 0, 16, 16⟩] ⟨24, 0, 16, 16⟩
      (by decide) (by decide) (by decide)
  · exact claim_C3_first_overlap_wins.2 ⟨⟨0, 5, 16, 16⟩, false, 0, 5⟩
      [] [⟨0, 40, 16, 16⟩] ⟨0, 18, 16, 16⟩
      (by decide) (by decide) (by decide)

/-! ### Update with an unobstructed path (claims C4, C10) -/

/-- Key handling never moves the rect. -/
theorem applyKeys_rect (p : Player) (k : Keys) : (applyKeys p k).rect = p.rect := by
  simp only [applyKeys]
  split_ifs <;> rfl

/-- Key handling never touches `bottom_collision`. -/
theorem applyKeys_bc (p : Player) (k : Keys) :
    (applyKeys p k).bottom_collision = p.bottom_collision := by
  simp only [applyKeys]
  split_ifs <;> rfl

/-- Without an "up" press the vertical speed survives key handling. -/
theorem applyKeys_vs_noup (p : Player) (k : Keys) (hup : k.up = false) :
    (applyKeys p k).vertical_speed = p.vertical_speed := by
  simp only [applyKeys, hup]
  split_ifs <;> simp_all

/-- A grounded "up" press is the jump impulse: vertical speed `-JUMP_SPEED`. -/
theorem applyKeys_vs_jump (p : Player) (k : Keys) (hup : k.up = true)
    (hg : p.bottom_collision = true) :
    (applyKeys p k).vertical_speed = -JUMP_SPEED := by
  simp only [applyKeys, hup, hg]
  split_ifs <;> simp_all

/-- The two box positions a resolution pass probes (after the horizontal move,
and after the vertical move) meet no object at all. -/
def clearPath (a : Player) (objs : List Rect) : Prop :=
  ∀ o ∈ objs,
    o.colliderect (a.rect.move_ip a.horizontal_speed 0) = false ∧
    o.colliderect ((a.rect.move_ip a.horizontal_speed 0).move_ip 0
      (truncQ a.vertical_speed)) = false

instance (a : Player) (objs : List Rect) : Decidable (clearPath a objs) := by
  unfold clearPath
  infer_instance

/-- A resolution pass along a clear path just moves the box and leaves
`bottom_collision` false and both speeds unchanged. -/
theorem movement_clear (a : Player) (objs : List Rect) (h : clearPath a objs) :
    movementWithCollision a objs =
      ⟨(a.rect.move_ip a.horizontal_speed 0).move_ip 0 (truncQ a.vertical_speed),
       false, a.horizontal_speed, a.vertical_speed⟩ := by
  unfold movementWithCollision horizPhase vertPhase
  simp only
  rw [foldl_horizStep_skip (fun x hx => (h x hx).1)]
  rw [foldl_vertStep_skip (fun x hx => (h x hx).2)]

/-- A frame whose resolution pass is along a clear path: the player stays
airborne and gravity is added to the post-keys vertical speed. -/
theorem update_clear (p : Player) (keys : Keys) (objs : List Rect)
    (h : clearPath (applyKeys p keys) objs) :
    Player.update p keys objs =
      ⟨((applyKeys p keys).rect.move_ip (applyKeys p keys).horizontal_speed 0).move_ip 0
         (truncQ (applyKeys p keys).vertical_speed),
       false, (applyKeys p keys).horizontal_speed,
       (applyKeys p keys).vertical_speed + FALL_ACCELERATION⟩ := by
  unfold Player.update
  rw [movement_clear _ _ h]
  rfl

/-- Edge contact from above is not an overlap for pygame's strict test. -/
theorem colliderect_false_of_bottom (o r : Rect) (h : r.bottom = o.top) :
    o.colliderect r = false := by
  rw [← Bool.not_eq_true, colliderect_iff]
  intro hc
  have h6 := hc.2.2.2.2.2.1
  omega

/-- C10: a player at rest whose bottom edge exactly equals a solid's top edge
is not colliding, stays ungrounded through the frame, and receives gravity:
the frame ends with vertical speed `FALL_ACCELERATION`. -/
theorem claim_C10_touch_no_ground (p : Player) (o : Rect) (keys : Keys)
    (hup : keys.up = false) (hv : p.vertical_speed = 0)
    (hb : p.rect.bottom = o.top) :
    o.colliderect p.rect = false ∧
    (Player.update p keys [o]).bottom_collision = false ∧
    (Player.update p keys [o]).vertical_speed = FALL_ACCELERATION := by
  have hav : (applyKeys p keys).vertical_speed = 0 := by
    rw [applyKeys_vs_noup p keys hup, hv]
  have hm1 : ((applyKeys p keys).rect.move_ip (applyKeys p keys).horizontal_speed 0).bottom
      = o.top := by
    rw [applyKeys_rect]
    simp only [Rect.move_ip, Rect.bottom] at hb ⊢
    omega
  have hm2 : (((applyKeys p keys).rect.move_ip (applyKeys p keys).horizontal_speed 0).move_ip 0
      (truncQ (applyKeys p keys).vertical_speed)).bottom = o.top := by
    rw [applyKeys_rect, hav]
    have ht : truncQ 0 = 0 := by simp [truncQ]
    rw [ht]
    simp only [Rect.move_ip, Rect.bottom] at hb ⊢
    omega
  have hcp : clearPath (applyKeys p keys) [o] := by
    intro x hx
    rw [List.mem_singleton] at hx
    subst hx
    exact ⟨colliderect_false_of_bottom _ _ hm1, colliderect_false_of_bottom _ _ hm2⟩
  have hu := update_clear p keys [o] hcp
  refine ⟨colliderect_false_of_bottom o p.rect hb, ?_, ?_⟩
  · rw [hu]
  · rw [hu]
    show (applyKeys p keys).vertical_speed + FALL_ACCELERATION = FALL_ACCELERATION
    rw [hav, zero_add]

/-- Witness for C10: the player standing exactly on a block, no keys held. -/
theorem claim_C10_witness :
    (⟨false, false, false⟩ : Keys).up = false ∧
    (⟨⟨0, 0, 16, 16⟩, true, 0, 0⟩ : Player).vertical_speed = 0 ∧
    (⟨⟨0, 0, 16, 16⟩, true, 0, 0⟩ : Player).rect.bottom = (⟨0, 16, 16, 16⟩ : Rect).top ∧
    ((⟨0, 16, 16, 16⟩ : Rect).colliderect (⟨0, 0, 16, 16⟩ : Rect) = false ∧
     (Player.update ⟨⟨0, 0, 16, 16⟩, true, 0, 0⟩ ⟨false, false, false⟩
       [⟨0, 16, 16, 16⟩]).bottom_collision = false ∧
     (Player.update ⟨⟨0, 0, 16, 16⟩, true, 0, 0⟩ ⟨false, false, false⟩
       [⟨0, 16, 16, 16⟩]).vertical_speed = FALL_ACCELERATION) := by
  have h := claim_C10_touch_no_ground ⟨⟨0, 0, 16, 16⟩, true, 0, 0⟩ ⟨0, 16, 16, 16⟩
    ⟨false, false, false⟩ rfl rfl (by decide)
  exact ⟨rfl, rfl, by decide, h⟩

/-- C4 counterexample: a grounded player jumping from a block ends the SAME
frame with vertical speed `-JUMP_SPEED + FALL_ACCELERATION`, not `-JUMP_SPEED`:
the jump leaves it airborne, so gravity already applies that frame. -/
theorem claim_C4_cex :
    (⟨⟨0, 0, 16, 16⟩, true, 0, 0⟩ : Player).bottom_collision = true ∧
    (⟨true, false, false⟩ : Keys).up = true ∧
    (Player.update ⟨⟨0, 0, 16, 16⟩, true, 0, 0⟩ ⟨true, false, false⟩
      [⟨0, 16, 16, 16⟩]).vertical_speed ≠ -JUMP_SPEED := by
  refine ⟨rfl, rfl, ?_⟩
  have h : (Player.update ⟨⟨0, 0, 16, 16⟩, true, 0, 0⟩ ⟨true, false, false⟩
      [⟨0, 16, 16, 16⟩]).vertical_speed = -10 + FALL_ACCELERATION := rfl
  rw [h]
  norm_num [FALL_ACCELERATION, JUMP_SPEED]

/-- C4 amended: a grounded "up" press sets the vertical speed to exactly
`-JUMP_SPEED` as the jump impulse; as the resolution meets nothing on the way,
the frame ends airborne with vertical speed `-JUMP_SPEED + FALL_ACCELERATION`
(gravity applies the same frame), `bottom_collision` is already false at the
end of the jump frame, and it stays false on the next frame whenever no floor
collision recurs. -/
theorem claim_C4_amended (p : Player) (keys : Keys) (objs : List Rect)
    (hup : keys.up = true) (hg : p.bottom_collision = true)
    (h : clearPath (applyKeys p keys) objs) :
    (applyKeys p keys).vertical_speed = -JUMP_SPEED ∧
    (Player.update p keys objs).vertical_speed = -JUMP_SPEED + FALL_ACCELERATION ∧
    (Player.update p keys objs).bottom_collision = false ∧
    ∀ keys2 : Keys, clearPath (applyKeys (Player.update p keys objs) keys2) objs →
      (Player.update (Player.update p keys objs) keys2 objs).bottom_collision = false := by
  have hj := applyKeys_vs_jump p keys hup hg
  have hu := update_clear p keys objs h
  refine ⟨hj, ?_, ?_, ?_⟩
  · rw [hu]
    show (applyKeys p keys).vertical_speed + FALL_ACCELERATION = -JUMP_SPEED + FALL_ACCELERATION
    rw [hj]
  · rw [hu]
  · intro keys2 h2
    rw [update_clear _ _ _ h2]

/-- Witness for the amended C4 at the concrete jump scenario. -/
theorem claim_C4_amended_witness :
    (⟨true, false, false⟩ : Keys).up = true ∧
    (⟨⟨0, 0, 16, 16⟩, true, 0, 0⟩ : Player).bottom_collision = true ∧
    clearPath (applyKeys ⟨⟨0, 0, 16, 16⟩, true, 0, 0⟩ ⟨true, false, false⟩)
      [⟨0, 16, 16, 16⟩] ∧
    (applyKeys ⟨⟨0, 0, 16, 16⟩, true, 0, 0⟩ ⟨true, false, false⟩).vertical_speed
      = -JUMP_SPEED ∧
    (Player.update ⟨⟨0, 0, 16, 16⟩, true, 0, 0⟩ ⟨true, false, false⟩
      [⟨0, 16, 16, 16⟩]).vertical_speed = -JUMP_SPEED + FALL_ACCELERATION ∧
    (Player.update ⟨⟨0, 0, 16, 16⟩, true, 0, 0⟩ ⟨true, false, false⟩
      [⟨0, 16, 16, 16⟩]).bottom_collision = false := by
  have h := claim_C4_amended ⟨⟨0, 0, 16, 16⟩, true, 0, 0⟩ ⟨true, false, false⟩
    [⟨0, 16, 16, 16⟩] rfl rfl (by decide)
  exact ⟨rfl, rfl, by decide, h.1, h.2.1, h.2.2.1⟩

/-! ### Animation cadence and frame-index bounds (claims C5, C9) -/

/-- Folding one more `+1` into an integer remainder. -/
theorem emod_succ_absorb (a n : Int) : (a % n + 1) % n = (a + 1) % n := by
  conv_rhs => rw [Int.add_emod]
  rw [Int.add_emod (a % n) 1, Int.emod_emod_of_dvd a dvd_rfl]

/-- While the query time stays ahead of the due time, each of `k + 1`
repeated queries advances the frame once and pushes the due time by one
cadence. -/
theorem animateN_adv (t : Int) : ∀ (k : Nat) (s : BaseObject), 1 < s.numSprites →
    s.next_animation_time + (k : Int) * ANIMATION_SPEED < t →
    s.animateN t (k + 1) =
      ⟨s.numSprites,
       (s.sprite_animation_index + ((k : Int) + 1)) % (s.numSprites : Int),
       s.next_animation_time + ((k : Int) + 1) * ANIMATION_SPEED⟩ := by
  intro k
  induction k with
  | zero =>
    intro s hn hlt
    show s.animate t = _
    unfold BaseObject.animate
    rw [if_pos ⟨hn, by simp at hlt; omega⟩]
    simp
  | succ k ih =>
    intro s hn hlt
    have hstep : s.next_animation_time + (k : Int) * ANIMATION_SPEED < t := by
      have : ((k : Int) + 1) * ANIMATION_SPEED = (k : Int) * ANIMATION_SPEED + 150 := by
        unfold ANIMATION_SPEED; ring
      push_cast at hlt
      unfold ANIMATION_SPEED at *
      omega
    show (s.animateN t (k + 1)).animate t = _
    rw [ih s hn hstep]
    have hcond : t - (s.next_animation_time + ((k : Int) + 1) * ANIMATION_SPEED) > 0 := by
      unfold ANIMATION_SPEED at *
      push_cast at hlt ⊢
      omega
    unfold BaseObject.animate
    rw [if_pos ⟨hn, hcond⟩]
    simp only [BaseObject.mk.injEq, true_and]
    refine ⟨?_, ?_⟩
    · rw [emod_succ_absorb]
      push_cast
      ring_nf
    · push_cast
      ring

/-- C5: with at least two frames and a query at or past the previous due time
plus one cadence, a single query advances the frame exactly once (modulo the
frame count) and sets the due time to previous-due plus cadence (not query
time plus cadence); across repeated queries at the same time `t`, with `k`
the number of cadence intervals elapsed, exactly `k` single advances happen
and the `(k+1)`-th query is a no-op. -/
theorem claim_C5_cadence (s : BaseObject) (t : Int) (k : Nat)
    (hn : 1 < s.numSprites)
    (hC : s.next_animation_time + ANIMATION_SPEED ≤ t)
    (hk1 : t ≤ s.next_animation_time + (k : Int) * ANIMATION_SPEED)
    (hk2 : s.next_animation_time + (k : Int) * ANIMATION_SPEED < t + ANIMATION_SPEED) :
    s.animate t =
      ⟨s.numSprites, (s.sprite_animation_index + 1) % (s.numSprites : Int),
       s.next_animation_time + ANIMATION_SPEED⟩ ∧
    s.animateN t k =
      ⟨s.numSprites, (s.sprite_animation_index + (k : Int)) % (s.numSprites : Int),
       s.next_animation_time + (k : Int) * ANIMATION_SPEED⟩ ∧
    (s.animateN t k).animate t = s.animateN t k := by
  have hk0 : k ≠ 0 := by
    rintro rfl
    unfold ANIMATION_SPEED at hC
    simp at hk1
    omega
  obtain ⟨k1, rfl⟩ := Nat.exists_eq_succ_of_ne_zero hk0
  have hstep : s.next_animation_time + (k1 : Int) * ANIMATION_SPEED < t := by
    unfold ANIMATION_SPEED at *
    push_cast at hk2
    omega
  have h2 := animateN_adv t k1 s hn hstep
  have h2c : s.animateN t (k1 + 1) =
      ⟨s.numSprites,
       (s.sprite_animation_index + ((k1 + 1 : Nat) : Int)) % (s.numSprites : Int),
       s.next_animation_time + ((k1 + 1 : Nat) : Int) * ANIMATION_SPEED⟩ := by
    rw [h2]
    simp only [BaseObject.mk.injEq, true_and]
    constructor <;> (push_cast; ring_nf)
  refine ⟨?_, h2c, ?_⟩
  · unfold BaseObject.animate
    rw [if_pos ⟨hn, by unfold ANIMATION_SPEED at hC; omega⟩]
  · rw [h2c]
    unfold BaseObject.animate
    rw [if_neg]
    intro hcnd
    have hgt := hcnd.2
    simp only at hgt
    push_cast at hgt hk1
    omega

/-- Witness for C5: four frames, due at 1000, queried at 1290: two cadence
intervals elapsed, two advances, then quiescence. -/
theorem claim_C5_witness :
    1 < (⟨4, 0, 1000⟩ : BaseObject).numSprites ∧
    (⟨4, 0, 1000⟩ : BaseObject).next_animation_time + ANIMATION_SPEED ≤ 1290 ∧
    (⟨4, 0, 1000⟩ : BaseObject).animateN 1290 2 =
      ⟨4, (0 + ((2 : Nat) : Int)) % ((4 : Nat) : Int),
       1000 + ((2 : Nat) : Int) * ANIMATION_SPEED⟩ ∧
    ((⟨4, 0, 1000⟩ : BaseObject).animateN 1290 2).animate 1290 =
      (⟨4, 0, 1000⟩ : BaseObject).animateN 1290 2 := by
  have h := claim_C5_cadence ⟨4, 0, 1000⟩ 1290 2 (by decide) (by decide)
    (by decide) (by decide)
  exact ⟨by decide, by decide, h.2.1, h.2.2⟩

/-- The frame-index bound of claim C9. -/
def animInvariant (s : BaseObject) : Prop :=
  0 ≤ s.sprite_animation_index ∧ s.sprite_animation_index < (s.numSprites : Int)

instance (s : BaseObject) : Decidable (animInvariant s) := by
  unfold animInvariant
  infer_instance

/-- C9: the frame index is within bounds at construction (sprite lists are
non-empty) and every `animate` call preserves the bound, at any query time. -/
theorem claim_C9_index_in_bounds :
    (∀ (n : Nat) (ticks jitter : Int), 1 ≤ n →
      animInvariant (BaseObject.init n ticks jitter)) ∧
    (∀ (s : BaseObject) (t : Int), animInvariant s → animInvariant (s.animate t)) := by
  constructor
  · intro n ticks jitter hn
    refine ⟨le_refl 0, ?_⟩
    show (0 : Int) < (n : Int)
    exact_mod_cast hn
  · intro s t hinv
    unfold BaseObject.animate
    split_ifs with hc
    · have hn : (0 : Int) < (s.numSprites : Int) := by
        have := hc.1
        exact_mod_cast Nat.lt_of_lt_of_le Nat.zero_lt_one this.le
      exact ⟨Int.emod_nonneg _ (ne_of_gt hn), Int.emod_lt_of_pos _ hn⟩
    · exact hinv

/-- Witness for C9 at a concrete fresh animator and a concrete advance. -/
theorem claim_C9_witness :
    (1 ≤ 4 ∧ animInvariant (BaseObject.init 4 100 37)) ∧
    (animInvariant ⟨4, 2, 100⟩ ∧ animInvariant ((⟨4, 2, 100⟩ : BaseObject).animate 500)) := by
  constructor
  · exact ⟨by decide, claim_C9_index_in_bounds.1 4 100 37 (by decide)⟩
  · exact ⟨by decide, claim_C9_index_in_bounds.2 ⟨4, 2, 100⟩ 500 (by decide)⟩

/-! ### Grid scanning lemmas (claims C1, C2, C8) -/

/-- An already-set player survives merging. -/
theorem mergeP_none (p : Option Entity) : mergeP p none = p := by
  cases p <;> rfl

/-- Merging onto an unset player takes the new value. -/
theorem mergeP_some_left (e : Entity) (q : Option Entity) :
    mergeP (some e) q = some e := rfl

/-- `mergeP` is associative. -/
theorem mergeP_assoc (p q r : Option Entity) :
    mergeP (mergeP p q) r = mergeP p (mergeP q r) := by
  cases p <;> cases q <;> rfl

/-- The cells collected for a character count that character. -/
theorem rowCellsOf_length (ch : Char) (cs : List Char) :
    ∀ colNum, (rowCellsOf ch colNum cs).length = countCh ch cs := by
  induction cs with
  | nil => intro colNum; rfl
  | cons c cs ih =>
    intro colNum
    by_cases hc : c = ch
    · simp [rowCellsOf, countCh, hc, ih]
      omega
    · simp [rowCellsOf, countCh, hc, ih]

/-- Grid version of `rowCellsOf_length`. -/
theorem gridCellsOf_length (ch : Char) (g : List (List Char)) :
    ∀ rowNum, (gridCellsOf ch rowNum g).length = countChG ch g := by
  induction g with
  | nil => intro rowNum; rfl
  | cons r rs ih =>
    intro rowNum
    simp [gridCellsOf, countChG, rowCellsOf_length, ih]

/-- A row with no `P` yields no player entity. -/
theorem rowPlayerEnt_eq_none (ss : Int) (rowNum : Nat) (cs : List Char)
    (h : countCh 'P' cs = 0) : ∀ colNum, rowPlayerEnt ss rowNum colNum cs = none := by
  induction cs with
  | nil => intro colNum; rfl
  | cons c cs ih =>
    intro colNum
    by_cases hc : c = 'P'
    · subst hc; simp [countCh] at h
    · simp only [countCh, if_neg hc, Nat.zero_add] at h
      simp [rowPlayerEnt, hc, ih h]

/-- A row yields a player entity exactly when it holds a `P`. -/
theorem rowPlayerEnt_isSome (ss : Int) (rowNum : Nat) (cs : List Char) :
    ∀ colNum, (rowPlayerEnt ss rowNum colNum cs).isSome = decide (countCh 'P' cs ≠ 0) := by
  induction cs with
  | nil => intro colNum; rfl
  | cons c cs ih =>
    intro colNum
    by_cases hc : c = 'P'
    · subst hc; simp [rowPlayerEnt, countCh]
    · simp [rowPlayerEnt, countCh, hc, ih]

/-- The row player entity is the head of the collected `P` cells. -/
theorem rowPlayerEnt_head (ss : Int) (rowNum : Nat) (cs : List Char) :
    ∀ colNum, rowPlayerEnt ss rowNum colNum cs =
      ((rowCellsOf 'P' colNum cs).head?).map (rowEnt .player ss rowNum) := by
  induction cs with
  | nil => intro colNum; rfl
  | cons c cs ih =>
    intro colNum
    by_cases hc : c = 'P'
    · subst hc; simp [rowPlayerEnt, rowCellsOf]
    · simp [rowPlayerEnt, rowCellsOf, hc, ih]

/-- The grid player entity is the head of the collected `P` cells. -/
theorem gridPlayerEnt_head (ss : Int) (g : List (List Char)) :
    ∀ rowNum, gridPlayerEnt ss rowNum g =
      ((gridCellsOf 'P' rowNum g).head?).map (cellEnt .player ss) := by
  induction g with
  | nil => intro rowNum; rfl
  | cons r rs ih =>
    intro rowNum
    rw [gridPlayerEnt, rowPlayerEnt_head, gridCellsOf, ih]
    cases hr : (rowCellsOf 'P' 0 r).head? with
    | none =>
      rw [List.head?_eq_none_iff] at hr
      simp [hr, mergeP]
    | some c =>
      obtain ⟨c0, cs0, hcons⟩ : ∃ c0 cs0, rowCellsOf 'P' 0 r = c0 :: cs0 := by
        cases hl : rowCellsOf 'P' 0 r with
        | nil => rw [hl] at hr; simp at hr
        | cons a b => exact ⟨a, b, rfl⟩
      rw [hcons] at hr
      simp only [List.head?_cons, Option.some.injEq] at hr
      subst hr
      simp [hcons, mergeP, cellEnt, rowEnt]

/-- A row with neither `T` nor `t` yields no trap entities. -/
theorem rowTrapEnts_eq_nil (ss : Int) (rowNum : Nat) (cs : List Char)
    (hT : countCh 'T' cs = 0) (ht : countCh 't' cs = 0) :
    ∀ colNum, rowTrapEnts ss rowNum colNum cs = [] := by
  induction cs with
  | nil => intro colNum; rfl
  | cons c cs ih =>
    intro colNum
    by_cases hcT : c = 'T'
    · subst hcT; simp [countCh] at hT
    · by_cases hct : c = 't'
      · subst hct; simp [countCh] at ht
      · simp only [countCh, if_neg hcT, Nat.zero_add] at hT
        simp only [countCh, if_neg hct, Nat.zero_add] at ht
        simp [rowTrapEnts, hcT, hct, ih hT ht]

/-- A grid with neither `T` nor `t` yields no trap entities. -/
theorem gridTrapEnts_eq_nil (ss : Int) (g : List (List Char))
    (hT : countChG 'T' g = 0) (ht : countChG 't' g = 0) :
    ∀ rowNum, gridTrapEnts ss rowNum g = [] := by
  induction g with
  | nil => intro rowNum; rfl
  | cons r rs ih =>
    intro rowNum
    simp only [countChG] at hT ht
    rw [gridTrapEnts, rowTrapEnts_eq_nil ss rowNum r (by omega) (by omega),
        ih (by omega) (by omega)]
    rfl

/-- A non-`P` cell never touches the player reference and never raises. -/
theorem processCell_ne_player (ss : Int) (rowNum colNum : Nat) (st : Level)
    (c : Char) (hc : c ≠ 'P') :
    ∃ st1, processCell ss rowNum colNum st c = .ok st1 ∧ st1.player = st.player := by
  unfold processCell
  rw [if_neg hc]
  refine ⟨_, rfl, ?_⟩
  split_ifs <;> rfl

/-- The inner loop on an exhausted row returns the state. -/
theorem scanRow_nil (ss : Int) (rowNum colNum : Nat) (st : Level) :
    scanRow ss rowNum colNum st [] = .ok st := rfl

/-- One accepted cell, then the rest of the row. -/
theorem scanRow_cons_ok (ss : Int) (rowNum colNum : Nat) (st st1 : Level)
    (c : Char) (cs : List Char) (h : processCell ss rowNum colNum st c = .ok st1) :
    scanRow ss rowNum colNum st (c :: cs) = scanRow ss rowNum (colNum + 1) st1 cs := by
  show (match processCell ss rowNum colNum st c with
        | .error e => Except.error e
        | .ok s => scanRow ss rowNum (colNum + 1) s cs) = _
  rw [h]

/-- A raising cell aborts the row. -/
theorem scanRow_cons_err (ss : Int) (rowNum colNum : Nat) (st : Level)
    (e : LoadError) (c : Char) (cs : List Char)
    (h : processCell ss rowNum colNum st c = .error e) :
    scanRow ss rowNum colNum st (c :: cs) = .error e := by
  show (match processCell ss rowNum colNum st c with
        | .error e => Except.error e
        | .ok s => scanRow ss rowNum (colNum + 1) s cs) = _
  rw [h]

/-- The outer loop on an exhausted grid returns the state. -/
theorem scanRows_nil (ss : Int) (rowNum : Nat) (st : Level) :
    scanRows ss rowNum st [] = .ok st := rfl

/-- One accepted row, then the rest of the grid. -/
theorem scanRows_cons_ok (ss : Int) (rowNum : Nat) (st st1 : Level)
    (r : List Char) (rs : List (List Char)) (h : scanRow ss rowNum 0 st r = .ok st1) :
    scanRows ss rowNum st (r :: rs) = scanRows ss (rowNum + 1) st1 rs := by
  show (match scanRow ss rowNum 0 st r with
        | .error e => Except.error e
        | .ok s => scanRows ss (rowNum + 1) s rs) = _
  rw [h]

/-- A raising row aborts the grid scan. -/
theorem scanRows_cons_err (ss : Int) (rowNum : Nat) (st : Level)
    (e : LoadError) (r : List Char) (rs : List (List Char))
    (h : scanRow ss rowNum 0 st r = .error e) :
    scanRows ss rowNum st (r :: rs) = .error e := by
  show (match scanRow ss rowNum 0 st r with
        | .error e => Except.error e
        | .ok s => scanRows ss (rowNum + 1) s rs) = _
  rw [h]

/-- Success shape of the inner loop: when at most one player is ever seen, a
row scan appends exactly the row's `B`/trap/`E` entities to the groups and
keeps the first player. -/
theorem scanRow_ok (ss : Int) (rowNum : Nat) :
    ∀ (cs : List Char) (colNum : Nat) (st : Level),
      playerCount st + countCh 'P' cs ≤ 1 →
      scanRow ss rowNum colNum st cs = .ok
        { player := mergeP st.player (rowPlayerEnt ss rowNum colNum cs),
          all_objects := st.all_objects,
          safe_objects := st.safe_objects ++
            (rowCellsOf 'B' colNum cs).map (rowEnt .block ss rowNum),
          traps := st.traps ++ rowTrapEnts ss rowNum colNum cs,
          exits := st.exits ++
            (rowCellsOf 'E' colNum cs).map (rowEnt .exitDoor ss rowNum) } := by
  intro cs
  induction cs with
  | nil =>
    intro colNum st h
    rw [scanRow_nil]
    simp [rowPlayerEnt, rowCellsOf, rowTrapEnts, mergeP_none]
  | cons c cs ih =>
    intro colNum st h
    by_cases hB : c = 'B'
    · subst hB
      have hpc : processCell ss rowNum colNum st 'B' = .ok
          { st with safe_objects := st.safe_objects ++ [⟨.block, (colNum : Int) * ss, (rowNum : Int) * ss⟩] } := by
        simp [processCell]
      rw [scanRow_cons_ok ss rowNum colNum st _ 'B' cs hpc,
          ih (colNum + 1) _ (by simpa [playerCount, countCh] using h)]
      simp [rowPlayerEnt, rowCellsOf, rowTrapEnts, rowEnt, List.append_assoc]
    · by_cases hT : c = 'T'
      · subst hT
        have hpc : processCell ss rowNum colNum st 'T' = .ok
            { st with traps := st.traps ++ [⟨.fire, (colNum : Int) * ss, (rowNum : Int) * ss⟩] } := by
          simp [processCell]
        rw [scanRow_cons_ok ss rowNum colNum st _ 'T' cs hpc,
            ih (colNum + 1) _ (by simpa [playerCount, countCh] using h)]
        simp [rowPlayerEnt, rowCellsOf, rowTrapEnts, rowEnt, List.append_assoc]
      · by_cases ht : c = 't'
        · subst ht
          have hpc : processCell ss rowNum colNum st 't' = .ok
              { st with traps := st.traps ++ [⟨.bluefire, (colNum : Int) * ss, (rowNum : Int) * ss⟩] } := by
            simp [processCell]
          rw [scanRow_cons_ok ss rowNum colNum st _ 't' cs hpc,
              ih (colNum + 1) _ (by simpa [playerCount, countCh] using h)]
          simp [rowPlayerEnt, rowCellsOf, rowTrapEnts, rowEnt, List.append_assoc]
        · by_cases hE : c = 'E'
          · subst hE
            have hpc : processCell ss rowNum colNum st 'E' = .ok
                { st with exits := st.exits ++ [⟨.exitDoor, (colNum : Int) * ss, (rowNum : Int) * ss⟩] } := by
              simp [processCell]
            rw [scanRow_cons_ok ss rowNum colNum st _ 'E' cs hpc,
                ih (colNum + 1) _ (by simpa [playerCount, countCh] using h)]
            simp [rowPlayerEnt, rowCellsOf, rowTrapEnts, rowEnt, List.append_assoc]
          · by_cases hP : c = 'P'
            · subst hP
              cases hp : st.player with
              | some e =>
                exfalso
                simp [playerCount, hp, countCh] at h
              | none =>
                have hpc : processCell ss rowNum colNum st 'P' = .ok
                    { st with player := some ⟨.player, (colNum : Int) * ss, (rowNum : Int) * ss⟩ } := by
                  simp [processCell, hp]
                have hcnt : countCh 'P' cs = 0 := by
                  simp [playerCount, hp, countCh] at h
                  omega
                rw [scanRow_cons_ok ss rowNum colNum st _ 'P' cs hpc,
                    ih (colNum + 1) _ (by simp [playerCount, hcnt])]
                simp [rowPlayerEnt, rowCellsOf, rowTrapEnts, rowEnt, hp, mergeP,
                      rowPlayerEnt_eq_none ss rowNum cs hcnt]
            · have hpc : processCell ss rowNum colNum st c = .ok st := by
                simp [processCell, hB, hT, ht, hE, hP]
              rw [scanRow_cons_ok ss rowNum colNum st _ c cs hpc,
                  ih (colNum + 1) _ (by simpa [playerCount, countCh, hP] using h)]
              simp [rowPlayerEnt, rowCellsOf, rowTrapEnts, hB, hT, ht, hE, hP]

/-- Error shape of the inner loop: as soon as a second player would be
created, the row scan raises the `ValueError`. -/
theorem scanRow_err (ss : Int) (rowNum : Nat) :
    ∀ (cs : List Char) (colNum : Nat) (st : Level),
      2 ≤ playerCount st + countCh 'P' cs →
      scanRow ss rowNum colNum st cs = .error .onlyOnePlayer := by
  intro cs
  induction cs with
  | nil =>
    intro colNum st h
    exfalso
    cases hp : st.player <;> simp [playerCount, hp, countCh] at h
  | cons c cs ih =>
    intro colNum st h
    by_cases hP : c = 'P'
    · subst hP
      cases hp : st.player with
      | some e =>
        have hpc : processCell ss rowNum colNum st 'P' = .error .onlyOnePlayer := by
          simp [processCell, hp]
        rw [scanRow_cons_err ss rowNum colNum st _ 'P' cs hpc]
      | none =>
        have hpc : processCell ss rowNum colNum st 'P' = .ok
            { st with player := some ⟨.player, (colNum : Int) * ss, (rowNum : Int) * ss⟩ } := by
          simp [processCell, hp]
        rw [scanRow_cons_ok ss rowNum colNum st _ 'P' cs hpc]
        apply ih
        simp [playerCount, hp, countCh] at h ⊢
        omega
    · obtain ⟨st1, hpc, hpl⟩ := processCell_ne_player ss rowNum colNum st c hP
      rw [scanRow_cons_ok ss rowNum colNum st st1 c cs hpc]
      apply ih
      have : playerCount st1 = playerCount st := by
        unfold playerCount
        rw [hpl]
      rw [this]
      simpa [countCh, hP] using h

/-- `playerCount` as a boolean test on the reference. -/
theorem playerCount_eq (st : Level) :
    playerCount st = if st.player.isSome then 1 else 0 := by
  cases h : st.player <;> simp [playerCount, h]

/-- `mergeP` is set exactly when one of its arguments is. -/
theorem mergeP_isSome (p q : Option Entity) :
    (mergeP p q).isSome = (p.isSome || q.isSome) := by
  cases p <;> simp [mergeP]

/-- Bookkeeping: after merging one scanned row into the state, the player
count grows by the row's `P` count (valid while at most one `P` was seen). -/
theorem playerCount_row_state (ss : Int) (rowNum : Nat) (r : List Char)
    (st st1 : Level)
    (hp : st1.player = mergeP st.player (rowPlayerEnt ss rowNum 0 r))
    (h : playerCount st + countCh 'P' r ≤ 1) :
    playerCount st1 = playerCount st + countCh 'P' r := by
  rw [playerCount_eq st1, hp, mergeP_isSome, rowPlayerEnt_isSome ss rowNum r 0]
  rw [playerCount_eq st] at h ⊢
  cases hps : st.player.isSome
  · by_cases hc : countCh 'P' r = 0
    · simp [hc]
    · rw [hps] at h
      simp only [if_false, Bool.false_eq_true, Nat.zero_add] at h
      simp [hc]
      omega
  · rw [hps] at h
    simp only [if_true] at h
    have hc : countCh 'P' r = 0 := by omega
    simp [hc]

/-- Success shape of the full grid scan: with at most one `P` in sight, the
scan returns, appending all recognized entities in scan order, positioned at
`(column * sprite_size, row * sprite_size)`. -/
theorem scanRows_ok (ss : Int) :
    ∀ (g : List (List Char)) (rowNum : Nat) (st : Level),
      playerCount st + countChG 'P' g ≤ 1 →
      scanRows ss rowNum st g = .ok
        { player := mergeP st.player (gridPlayerEnt ss rowNum g),
          all_objects := st.all_objects,
          safe_objects := st.safe_objects ++
            (gridCellsOf 'B' rowNum g).map (cellEnt .block ss),
          traps := st.traps ++ gridTrapEnts ss rowNum g,
          exits := st.exits ++
            (gridCellsOf 'E' rowNum g).map (cellEnt .exitDoor ss) } := by
  intro g
  induction g with
  | nil =>
    intro rowNum st h
    rw [scanRows_nil]
    simp [gridPlayerEnt, gridCellsOf, gridTrapEnts, mergeP_none]
  | cons r rs ih =>
    intro rowNum st h
    simp only [countChG] at h
    have hrow : playerCount st + countCh 'P' r ≤ 1 := by omega
    rw [scanRows_cons_ok ss rowNum st _ r rs (scanRow_ok ss rowNum r 0 st hrow)]
    have hpc1 := playerCount_row_state ss rowNum r st
      { player := mergeP st.player (rowPlayerEnt ss rowNum 0 r),
        all_objects := st.all_objects,
        safe_objects := st.safe_objects ++ (rowCellsOf 'B' 0 r).map (rowEnt .block ss rowNum),
        traps := st.traps ++ rowTrapEnts ss rowNum 0 r,
        exits := st.exits ++ (rowCellsOf 'E' 0 r).map (rowEnt .exitDoor ss rowNum) } rfl hrow
    rw [ih (rowNum + 1) _ (by rw [hpc1]; omega)]
    simp only [Except.ok.injEq, Level.mk.injEq, true_and]
    refine ⟨?_, ?_, ?_, ?_⟩
    · rw [gridPlayerEnt, mergeP_assoc]
    · rw [gridCellsOf, List.map_append, List.map_map, List.append_assoc]
      have : cellEnt ObjKind.block ss ∘ (fun c => (rowNum, c)) = rowEnt ObjKind.block ss rowNum := by
        funext c
        rfl
      rw [this]
    · rw [gridTrapEnts, List.append_assoc]
    · rw [gridCellsOf, List.map_append, List.map_map, List.append_assoc]
      have : cellEnt ObjKind.exitDoor ss ∘ (fun c => (rowNum, c)) = rowEnt ObjKind.exitDoor ss rowNum := by
        funext c
        rfl
      rw [this]

/-- Error shape of the full grid scan: a second `P` anywhere raises. -/
theorem scanRows_err (ss : Int) :
    ∀ (g : List (List Char)) (rowNum : Nat) (st : Level),
      2 ≤ playerCount st + countChG 'P' g →
      scanRows ss rowNum st g = .error .onlyOnePlayer := by
  intro g
  induction g with
  | nil =>
    intro rowNum st h
    exfalso
    cases hp : st.player <;> simp [playerCount, hp, countChG] at h
  | cons r rs ih =>
    intro rowNum st h
    simp only [countChG] at h
    by_cases h2 : 2 ≤ playerCount st + countCh 'P' r
    · rw [scanRows_cons_err ss rowNum st _ r rs (scanRow_err ss rowNum r 0 st h2)]
    · have hrow : playerCount st + countCh 'P' r ≤ 1 := by omega
      rw [scanRows_cons_ok ss rowNum st _ r rs (scanRow_ok ss rowNum r 0 st hrow)]
      have hpc1 := playerCount_row_state ss rowNum r st
        { player := mergeP st.player (rowPlayerEnt ss rowNum 0 r),
          all_objects := st.all_objects,
          safe_objects := st.safe_objects ++ (rowCellsOf 'B' 0 r).map (rowEnt .block ss rowNum),
          traps := st.traps ++ rowTrapEnts ss rowNum 0 r,
          exits := st.exits ++ (rowCellsOf 'E' 0 r).map (rowEnt .exitDoor ss rowNum) } rfl hrow
      apply ih
      rw [hpc1]
      omega

/-- C2: any grid with two or more `P` cells makes `load_map` raise the
configuration error; no level value reaches the caller. -/
theorem claim_C2_two_players_abort (ss : Int) (grid : List (List Char))
    (h : 2 ≤ countChG 'P' grid) :
    load_map ss grid = .error .onlyOnePlayer := by
  unfold load_map
  rw [scanRows_err ss grid 0 initLevel (by simpa [playerCount, initLevel] using h)]

/-- Witness for C2 on a concrete two-player grid. -/
theorem claim_C2_witness :
    2 ≤ countChG 'P' [['P', 'P']] ∧
    load_map 16 [['P', 'P']] = .error .onlyOnePlayer :=
  ⟨by decide, claim_C2_two_players_abort 16 [['P', 'P']] (by decide)⟩

/-- C1 counterexample: a grid with zero `P` cells does NOT load successfully;
`load_map` raises (inside pygame) when adding the unset player to
`all_objects`. -/
theorem claim_C1_cex :
    countChG 'P' [['B']] = 0 ∧
    load_map 16 [['B']] = .error .groupAddNone :=
  ⟨rfl, rfl⟩

/-- C1 amended: with zero `P` cells the grid SCAN completes without the
duplicate-player error, leaving the player reference unset and the
solid/hazard/exit collections populated from the grid — but `load_map` as a
whole then fails when line 73 adds the unset (`None`) player to the
all-objects group, so no level value is produced. -/
theorem claim_C1_missing_player (ss : Int) (grid : List (List Char))
    (h : countChG 'P' grid = 0) :
    scanRows ss 0 initLevel grid = .ok
      { player := none,
        all_objects := [],
        safe_objects := (gridCellsOf 'B' 0 grid).map (cellEnt .block ss),
        traps := gridTrapEnts ss 0 grid,
        exits := (gridCellsOf 'E' 0 grid).map (cellEnt .exitDoor ss) } ∧
    load_map ss grid = .error .groupAddNone := by
  have hs := scanRows_ok ss grid 0 initLevel (by simp [playerCount, initLevel, h])
  have hpn : gridPlayerEnt ss 0 grid = none := by
    rw [gridPlayerEnt_head]
    have hnil : gridCellsOf 'P' 0 grid = [] := by
      have hl := gridCellsOf_length 'P' grid 0
      rw [h] at hl
      exact List.length_eq_zero.mp hl
    rw [hnil]
    rfl
  constructor
  · rw [hs]
    simp [initLevel, mergeP, hpn]
  · unfold load_map
    rw [hs]
    simp [initLevel, mergeP, hpn]

/-- Witness for the amended C1 on a concrete playerless grid. -/
theorem claim_C1_witness :
    countChG 'P' [['B', 'E']] = 0 ∧
    (scanRows 16 0 initLevel [['B', 'E']] = .ok
      { player := none,
        all_objects := [],
        safe_objects := (gridCellsOf 'B' 0 [['B', 'E']]).map (cellEnt .block 16),
        traps := gridTrapEnts 16 0 [['B', 'E']],
        exits := (gridCellsOf 'E' 0 [['B', 'E']]).map (cellEnt .exitDoor 16) } ∧
     load_map 16 [['B', 'E']] = .error .groupAddNone) :=
  ⟨rfl, claim_C1_missing_player 16 [['B', 'E']] rfl⟩

/-- C8: a grid whose recognized cells are exactly one `B`, one `E` and one `P`
(and no traps) loads into a level whose solid/exit collections and player
reference each hold exactly one entity, positioned at
`(column * sprite_size, row * sprite_size)`; nothing else produces an entity,
so `all_objects` holds exactly those three. -/
theorem claim_C8_singletons (ss : Int) (grid : List (List Char))
    (rB cB rE cE rP cP : Nat)
    (hB : gridCellsOf 'B' 0 grid = [(rB, cB)])
    (hE : gridCellsOf 'E' 0 grid = [(rE, cE)])
    (hP : gridCellsOf 'P' 0 grid = [(rP, cP)])
    (hT : countChG 'T' grid = 0)
    (hts : countChG 't' grid = 0) :
    load_map ss grid = .ok
      { player := some ⟨.player, (cP : Int) * ss, (rP : Int) * ss⟩,
        all_objects := [⟨.player, (cP : Int) * ss, (rP : Int) * ss⟩,
                        ⟨.block, (cB : Int) * ss, (rB : Int) * ss⟩,
                        ⟨.exitDoor, (cE : Int) * ss, (rE : Int) * ss⟩],
        safe_objects := [⟨.block, (cB : Int) * ss, (rB : Int) * ss⟩],
        traps := [],
        exits := [⟨.exitDoor, (cE : Int) * ss, (rE : Int) * ss⟩] } := by
  have hcnt : countChG 'P' grid = 1 := by
    have hl := gridCellsOf_length 'P' grid 0
    rw [hP] at hl
    simpa using hl.symm
  have hs := scanRows_ok ss grid 0 initLevel (by simp [playerCount, initLevel, hcnt])
  have hpe : gridPlayerEnt ss 0 grid =
      some ⟨.player, (cP : Int) * ss, (rP : Int) * ss⟩ := by
    rw [gridPlayerEnt_head, hP]
    rfl
  unfold load_map
  rw [hs]
  simp [initLevel, mergeP, hpe, hB, hE, gridTrapEnts_eq_nil ss grid hT hts, cellEnt]

/-- Witness for C8 on the concrete 2-by-2 grid `.P / BE` with tile size 16. -/
theorem claim_C8_witness :
    gridCellsOf 'B' 0 [['.', 'P'], ['B', 'E']] = [(1, 0)] ∧
    gridCellsOf 'E' 0 [['.', 'P'], ['B', 'E']] = [(1, 1)] ∧
    gridCellsOf 'P' 0 [['.', 'P'], ['B', 'E']] = [(0, 1)] ∧
    load_map 16 [['.', 'P'], ['B', 'E']] = .ok
      { player := some ⟨.player, ((1 : Nat) : Int) * 16, ((0 : Nat) : Int) * 16⟩,
        all_objects := [⟨.player, ((1 : Nat) : Int) * 16, ((0 : Nat) : Int) * 16⟩,
                        ⟨.block, ((0 : Nat) : Int) * 16, ((1 : Nat) : Int) * 16⟩,
                        ⟨.exitDoor, ((1 : Nat) : Int) * 16, ((1 : Nat) : Int) * 16⟩],
        safe_objects := [⟨.block, ((0 : Nat) : Int) * 16, ((1 : Nat) : Int) * 16⟩],
        traps := [],
        exits := [⟨.exitDoor, ((1 : Nat) : Int) * 16, ((1 : Nat) : Int) * 16⟩] } :=
  ⟨rfl, rfl, rfl,
   claim_C8_singletons 16 [['.', 'P'], ['B', 'E']] 1 0 1 1 0 1 rfl rfl rfl rfl rfl⟩
